import Mathlib

/-!
Verification of the duplicate-file resolver (`aux_scripts/clean_duplicates.py`)
and the JSON→FIT converter (`aux_scripts/convert_json_to_fit.py`).

Conventions of the embedding:
* A FIT activity file that reached the resolver is a `FileEntry`: an `id`
  standing for its filesystem path, its session start timestamp `ts`
  (seconds, as an integer), and its provenance `pri`ority from
  `classify_source` (lower = preferred).
* Python's stable `list.sort(key=...)` is modelled by `List.insertionSort`
  over the non-strict key comparison, which is stable in the same sense
  (an element inserted from the front stays before later equal keys).
* The visited-set loop of `find_duplicates` (lines 202-228) is modelled by
  the structural recursion `clusters`: when the outer loop reaches index
  `i`, every index `j < i` is already in `used` (each index visited by the
  outer loop is added to `used`, either as an anchor or earlier as a group
  member), so the unvisited items always form a suffix-like sublist; the
  anchor is the first of them and the inner scan is a filter over the rest.
-/

/-!
## JSON → FIT converter (`aux_scripts/convert_json_to_fit.py`)

Bytes are modelled as `Nat` (always < 256 where the source writes them),
byte strings as `List Nat`, the writer's `self.records` as
`List (List Nat)`.  JSON numbers are modelled as integers and the float
arithmetic of the geohash decoder and the semicircle conversion as exact
rational arithmetic.
-/

structure FileEntry where
  id : Nat
  ts : Int
  pri : Nat
deriving DecidableEq, Repr

/-- Key order used by `file_times.sort(key=lambda x: x[1])` (timestamp). -/
def tsLE (a b : FileEntry) : Prop := a.ts ≤ b.ts

instance : DecidableRel tsLE := fun a b => Int.decLe a.ts b.ts

instance : IsTotal FileEntry tsLE := ⟨fun a b => Int.le_total a.ts b.ts⟩

instance : IsTrans FileEntry tsLE := ⟨fun _ _ _ h1 h2 => le_trans h1 h2⟩

/-- Key order used by `group.sort(key=lambda x: x[2])` (priority). -/
def priLE (a b : FileEntry) : Prop := a.pri ≤ b.pri

instance : DecidableRel priLE := fun a b => Nat.decLe a.pri b.pri

instance : IsTotal FileEntry priLE := ⟨fun a b => Nat.le_total a.pri b.pri⟩

instance : IsTrans FileEntry priLE := ⟨fun _ _ _ h1 h2 => le_trans h1 h2⟩

/-- `file_times.sort(key=lambda x: x[1])` — stable sort by timestamp. -/
def sortTs (l : List FileEntry) : List FileEntry := l.insertionSort tsLE

/-- `group.sort(key=lambda x: x[2])` — stable sort by priority. -/
def sortPri (l : List FileEntry) : List FileEntry := l.insertionSort priLE

/-- `abs((timestamp - other_time).total_seconds()) <= tolerance_seconds`. -/
def withinTol (anchorTs t T : Int) : Bool := decide (|anchorTs - t| ≤ T)

/-- Fuel-indexed form of the grouping pass (structural recursion so the
kernel can evaluate it); `clusters` instantiates the fuel with the list
length, which always suffices because each round consumes the anchor. -/
def clustersFuel : Nat → List FileEntry → Int → List (Int × List FileEntry)
  | 0, _, _ => []
  | _ + 1, [], _ => []
  | n + 1, a :: rest, T =>
    (a.ts, a :: rest.filter (fun f => withinTol a.ts f.ts T)) ::
      clustersFuel n (rest.filter (fun f => ! withinTol a.ts f.ts T)) T

/-- The grouping pass of `find_duplicates` (lines 202-228), run on the
already-sorted list: each unvisited item in turn is the anchor of a new
group; every other unvisited item joins the group iff its timestamp is
within `T` of the anchor's and is then marked visited. -/
def clusters (l : List FileEntry) (T : Int) : List (Int × List FileEntry) :=
  clustersFuel l.length l T

/-- `find_duplicates` (lines 174-228): sort by timestamp, group, and keep
only groups with more than one member (`if len(group) > 1`). -/
def find_duplicates (l : List FileEntry) (T : Int) : List (Int × List FileEntry) :=
  (clusters (sortTs l) T).filter (fun g => decide (1 < g.2.length))

/-- `display_duplicates` (lines 231-259): per group, stable-sort by
priority, keep the first member, mark the rest for deletion. -/
def display_duplicates (groups : List (Int × List FileEntry)) :
    List FileEntry × List FileEntry :=
  groups.foldl
    (fun kd g => (kd.1 ++ (sortPri g.2).take 1, kd.2 ++ (sortPri g.2).drop 1))
    ([], [])

/-- The files a full run leaves on disk: everything not marked for
deletion. A second run of the script scans exactly these. -/
def survivors (l : List FileEntry) (T : Int) : List FileEntry :=
  l.filter (fun f => ! decide (f ∈ (display_duplicates (find_duplicates l T)).2))

/-- Fuel-indexed list of group anchors (first member of each group of the
pass, singleton groups included). -/
def anchorsFuel : Nat → List FileEntry → Int → List FileEntry
  | 0, _, _ => []
  | _ + 1, [], _ => []
  | n + 1, a :: rest, T =>
    a :: anchorsFuel n (rest.filter (fun f => ! withinTol a.ts f.ts T)) T

/-- The anchors of all groups of the pass (first member of each group,
singleton groups included): the set of survivors in the hypothetical case
that each group's surviving member is its anchor. -/
def anchorsList (l : List FileEntry) (T : Int) : List FileEntry :=
  anchorsFuel l.length l T

/-- Anchor-survivor set of a full run on an arbitrary batch. -/
def anchorsOf (l : List FileEntry) (T : Int) : List FileEntry :=
  anchorsList (sortTs l) T

/-- Three files 5 s apart with priorities making the middle one the
survivor of the first group: `A(t=0,pri 3)`, `B(t=5,pri 1)`, `C(t=10,pri 2)`. -/
def exBatch : List FileEntry := [⟨0, 0, 3⟩, ⟨1, 5, 1⟩, ⟨2, 10, 2⟩]

/-- Little-endian 16-bit packing (`struct.pack('<H', ...)`). -/
def le16 (n : Nat) : List Nat := [n % 256, n / 256 % 256]

/-- Little-endian 32-bit packing (`struct.pack('<I', ...)`). -/
def le32 (n : Nat) : List Nat :=
  [n % 256, n / 256 % 256, n / 65536 % 256, n / 16777216 % 256]

/-- `FITWriter._encode_field` with a present integer value (lines
109-131).  `struct.pack` of a signed type writes two's complement, i.e.
the little-endian bytes of the value mod 2^w; for the unsigned and enum
types the source masks the value itself (`value & 0xFF`, …).  The
string/float branches are never reached with a present value by this
converter (no call site passes one), so present values are integers. -/
def encode_present (v : Int) (bt : Nat) : List Nat :=
  if bt = 0x00 then [(v.emod 256).toNat]
  else if bt = 0x01 then [(v.emod 256).toNat]
  else if bt = 0x02 then [(v.emod 256).toNat]
  else if bt = 0x83 then le16 (v.emod 65536).toNat
  else if bt = 0x84 then le16 (v.emod 65536).toNat
  else if bt = 0x85 then le32 (v.emod 4294967296).toNat
  else if bt = 0x86 then le32 (v.emod 4294967296).toNat
  else [(v.emod 256).toNat]

/-- `FITWriter._encode_field` (lines 82-131).  `none` is an absent
(`None`) value: the reserved invalid pattern of the base type is written.
`[0x00, 0x00, 0xC0, 0x7F]` is CPython's `struct.pack('<f', float('nan'))`
and the eight-byte pattern its float64 counterpart. -/
def encode_field (v : Option Int) (bt : Nat) : List Nat :=
  match v with
  | none =>
    if bt = 0x00 then [0xFF]
    else if bt = 0x01 then [0x7F]
    else if bt = 0x02 then [0xFF]
    else if bt = 0x83 then [0xFF, 0x7F]
    else if bt = 0x84 then [0xFF, 0xFF]
    else if bt = 0x85 then [0xFF, 0xFF, 0xFF, 0x7F]
    else if bt = 0x86 then [0xFF, 0xFF, 0xFF, 0xFF]
    else if bt = 0x07 then [0x00]
    else if bt = 0x88 then [0x00, 0x00, 0xC0, 0x7F]
    else if bt = 0x89 then [0x00, 0x00, 0x00, 0x00, 0x00, 0x00, 0xF8, 0x7F]
    else [0xFF]
  | some w => encode_present w bt

/-- The 16-entry nibble table of `FITWriter._crc16` (lines 135-138). -/
def crc_table : List Nat :=
  [0x0000, 0xCC01, 0xD801, 0x1400, 0xF001, 0x3C00, 0x2800, 0xE401,
   0xA001, 0x6C00, 0x7800, 0xB401, 0x5000, 0x9C01, 0x8801, 0x4400]

/-- One nibble step of `_crc16`: table lookup on the low four bits of the
running checksum, right-shift the checksum four bits, mask to twelve
bits, xor with both lookups. -/
def crc_step (crc nib : Nat) : Nat :=
  let tmp := crc_table.getD (crc % 16) 0
  let crc2 := crc / 16 % 4096
  crc2 ^^^ tmp ^^^ crc_table.getD nib 0

/-- Per-byte processing of `_crc16`: low nibble first, then high nibble. -/
def crc_byte (crc b : Nat) : Nat := crc_step (crc_step crc (b % 16)) (b / 16 % 16)

/-- `FITWriter._crc16` (lines 133-147). -/
def crc16 (data : List Nat) : Nat := data.foldl crc_byte 0

/-- `FITWriter.write` (lines 340-367): twelve header content bytes
(header-size field 14, protocol 0x20, profile 2056 little endian, the
4-byte little-endian length of the message stream, the magic '.FIT'),
then the 16-bit CRC of those twelve bytes, the message stream, and the
16-bit CRC of the stream. -/
def write_bytes (records : List (List Nat)) : List Nat :=
  let dataRecords := records.flatten
  let dataSize := dataRecords.length
  let header :=
    [14, 0x20, 0x08, 0x08,
     dataSize % 256, dataSize / 256 % 256,
     dataSize / 65536 % 256, dataSize / 16777216 % 256,
     0x2E, 0x46, 0x49, 0x54]
  let headerCrc := crc16 header
  let dataCrc := crc16 dataRecords
  (header ++ [headerCrc % 256, headerCrc / 256 % 256]) ++ dataRecords ++
    [dataCrc % 256, dataCrc / 256 % 256]

/-- `FITWriter.add_file_id` (lines 149-175): definition record for local
slot 0 followed by its data record. -/
def add_file_id (timestamp manufacturer product serial file_type : Int) :
    List (List Nat) :=
  [[0x40, 0x00, 0x00, 0x00, 0x00, 0x05,
    0x00, 0x01, 0x00, 0x01, 0x02, 0x84, 0x02, 0x02, 0x84,
    0x03, 0x04, 0x86, 0x04, 0x04, 0x86],
   [0x00] ++ encode_field (some file_type) 0x00 ++
     encode_field (some manufacturer) 0x84 ++ encode_field (some product) 0x84 ++
     encode_field (some serial) 0x86 ++ encode_field (some timestamp) 0x86]

/-- `FITWriter.add_event` (lines 177-197): definition record for local
slot 1 followed by its data record — emitted on every call. -/
def add_event (timestamp event event_type : Int) : List (List Nat) :=
  [[0x41, 0x00, 0x00, 0x15, 0x00, 0x03,
    0xFD, 0x04, 0x86, 0x00, 0x01, 0x00, 0x01, 0x01, 0x00],
   [0x01] ++ encode_field (some timestamp) 0x86 ++
     encode_field (some event) 0x00 ++ encode_field (some event_type) 0x00]

/-- The channel-presence flags returned by `add_record_definition`. -/
structure RecordConfig where
  has_hr : Bool
  has_cadence : Bool
  has_power : Bool
  has_temperature : Bool
  has_gps : Bool
deriving DecidableEq, Repr

/-- The (field number, size, base type) triples of `add_record_definition`
(lines 199-234). -/
def record_fields (cfg : RecordConfig) : List (Nat × Nat × Nat) :=
  [(0xFD, 0x04, 0x86)] ++
  (if cfg.has_gps then [(0x00, 0x04, 0x85), (0x01, 0x04, 0x85)] else []) ++
  (if cfg.has_hr then [(0x03, 0x01, 0x02)] else []) ++
  (if cfg.has_cadence then [(0x04, 0x01, 0x02)] else []) ++
  (if cfg.has_power then [(0x07, 0x02, 0x84)] else []) ++
  (if cfg.has_temperature then [(0x0D, 0x01, 0x01)] else [])

/-- `FITWriter.add_record_definition`: the definition record for local
slot 2. -/
def add_record_definition (cfg : RecordConfig) : List (List Nat) :=
  [[0x42, 0x00, 0x00, 0x14, 0x00, (record_fields cfg).length] ++
    (record_fields cfg).flatMap (fun t => [t.1, t.2.1, t.2.2])]

/-- Python `int(x)`: truncation toward zero. -/
def ratTrunc (q : ℚ) : Int := if 0 ≤ q then ⌊q⌋ else -⌊-q⌋

/-- `int((deg / 180.0) * 2147483648)` (lines 253-254), degrees to
semicircles (exact rational model of the float arithmetic). -/
def toSemicircles (deg : ℚ) : Int := ratTrunc (deg / 180 * 2147483648)

/-- `FITWriter.add_record` (lines 244-270): a data record for local
slot 2, fields present according to the configuration flags. -/
def add_record (timestamp : Int) (cfg : RecordConfig)
    (heart_rate cadence power temperature : Option Int) (lat lon : Option ℚ) :
    List Nat :=
  [0x02] ++ encode_field (some timestamp) 0x86 ++
  (if cfg.has_gps then
      encode_field (lat.map toSemicircles) 0x85 ++
        encode_field (lon.map toSemicircles) 0x85
    else []) ++
  (if cfg.has_hr then encode_field heart_rate 0x02 else []) ++
  (if cfg.has_cadence then encode_field cadence 0x02 else []) ++
  (if cfg.has_power then encode_field power 0x84 else []) ++
  (if cfg.has_temperature then encode_field temperature 0x01 else [])

/-- Python truthiness of an optional number: `None` and `0` are falsy. -/
def truthy (o : Option Int) : Bool :=
  match o with
  | none => false
  | some v => decide (v ≠ 0)

/-- `int(x * k) if x else None` as used by `add_session`/`add_activity`
for the scaled fields (lines 304-308, 335). -/
def scaleIfTruthy (o : Option Int) (k : Int) : Option Int :=
  if truthy o then some (o.getD 0 * k) else none

/-- `FITWriter.add_session` (lines 272-314): definition record for local
slot 3 followed by its data record. -/
def add_session (timestamp start_time total_elapsed_time total_timer_time : Int)
    (sport sub_sport : Int) (total_distance total_calories : Option Int)
    (avg_heart_rate max_heart_rate avg_cadence avg_power : Option Int) :
    List (List Nat) :=
  [[0x43, 0x00, 0x00, 0x12, 0x00, 0x0C,
    0xFD, 0x04, 0x86, 0x02, 0x04, 0x86, 0x07, 0x04, 0x86, 0x08, 0x04, 0x86,
    0x05, 0x01, 0x00, 0x06, 0x01, 0x00, 0x09, 0x04, 0x86, 0x0B, 0x02, 0x84,
    0x10, 0x01, 0x02, 0x11, 0x01, 0x02, 0x12, 0x01, 0x02, 0x14, 0x02, 0x84],
   [0x03] ++ encode_field (some timestamp) 0x86 ++
     encode_field (some start_time) 0x86 ++
     encode_field (scaleIfTruthy (some total_elapsed_time) 1000) 0x86 ++
     encode_field (scaleIfTruthy (some total_timer_time) 1000) 0x86 ++
     encode_field (some sport) 0x00 ++ encode_field (some sub_sport) 0x00 ++
     encode_field (scaleIfTruthy total_distance 100) 0x86 ++
     encode_field total_calories 0x84 ++
     encode_field avg_heart_rate 0x02 ++ encode_field max_heart_rate 0x02 ++
     encode_field avg_cadence 0x02 ++ encode_field avg_power 0x84]

/-- `FITWriter.add_activity` (lines 316-338): definition record for local
slot 4 followed by its data record. -/
def add_activity (timestamp total_timer_time num_sessions : Int) :
    List (List Nat) :=
  [[0x44, 0x00, 0x00, 0x22, 0x00, 0x04,
    0xFD, 0x04, 0x86, 0x00, 0x04, 0x86, 0x01, 0x02, 0x84, 0x02, 0x01, 0x00],
   [0x04] ++ encode_field (some timestamp) 0x86 ++
     encode_field (scaleIfTruthy (some total_timer_time) 1000) 0x86 ++
     encode_field (some num_sessions) 0x84 ++ encode_field (some 0) 0x00]

/-- The two half-open intervals and axis toggle of `geohash_to_latlon`
(lines 374-376). -/
structure GeoState where
  latLo : ℚ
  latHi : ℚ
  lonLo : ℚ
  lonHi : ℚ
  isLon : Bool
deriving DecidableEq, Repr

def initGeoState : GeoState := ⟨-90, 90, -180, 180, true⟩

/-- The 32-character geohash alphabet (line 372): omits a, i, l, o. -/
def base32 : List Char :=
  ['0', '1', '2', '3', '4', '5', '6', '7', '8', '9', 'b', 'c', 'd', 'e', 'f', 'g',
   'h', 'j', 'k', 'm', 'n', 'p', 'q', 'r', 's', 't', 'u', 'v', 'w', 'x', 'y', 'z']

/-- One bit of the inner loop of `geohash_to_latlon` (lines 382-396):
halve the current axis interval toward the bit, toggle the axis. -/
def geoBit (st : GeoState) (bit : Bool) : GeoState :=
  if st.isLon then
    let mid := (st.lonLo + st.lonHi) / 2
    if bit then { st with lonLo := mid, isLon := false }
    else { st with lonHi := mid, isLon := false }
  else
    let mid := (st.latLo + st.latHi) / 2
    if bit then { st with latLo := mid, isLon := true }
    else { st with latHi := mid, isLon := true }

/-- One character of `geohash_to_latlon` (lines 378-381): the input is
lower-cased, characters outside the alphabet are skipped silently, a
valid character contributes its five bits most significant first. -/
def geoChar (st : GeoState) (ch : Char) : GeoState :=
  let c := ch.toLower
  if c ∈ base32 then
    let val := base32.indexOf c
    [4, 3, 2, 1, 0].foldl (fun s i => geoBit s (decide (val / 2 ^ i % 2 = 1))) st
  else st

/-- State after feeding the whole string to `geohash_to_latlon`. -/
def geoDecode (s : List Char) : GeoState := s.foldl geoChar initGeoState

/-- `geohash_to_latlon` (lines 370-400): the midpoints of the final
latitude and longitude intervals (exact rational model of the float
arithmetic). -/
def geohash_to_latlon (s : List Char) : ℚ × ℚ :=
  ((((geoDecode s).latLo + (geoDecode s).latHi) / 2),
   (((geoDecode s).lonLo + (geoDecode s).lonHi) / 2))

/-- Gregorian leap-year rule, as Python's `datetime` calendar uses. -/
def isLeap (y : Nat) : Bool := y % 4 = 0 && (y % 100 ≠ 0 || y % 400 = 0)

def monthLengths (leap : Bool) : List Nat :=
  [31, if leap then 29 else 28, 31, 30, 31, 30, 31, 31, 30, 31, 30, 31]

/-- Days from 1970-01-01 to the civil date `y-m-d`. -/
def daysSinceEpoch (y m d : Nat) : Nat :=
  ((List.range (y - 1970)).map (fun i => if isLeap (1970 + i) then 366 else 365)).sum +
    ((monthLengths (isLeap y)).take (m - 1)).sum + (d - 1)

/-- Unix seconds of `datetime(y, m, d, tzinfo=timezone.utc)`: a datetime
instant is modelled by its signed distance in seconds from the Unix
epoch, so that datetime subtraction is integer subtraction. -/
def datetimeUTC (y m d : Nat) : Int := 86400 * (daysSinceEpoch y m d : Int)

/-- `FIT_EPOCH = datetime(1989, 12, 31, tzinfo=timezone.utc)` (line 41). -/
def FIT_EPOCH : Int := datetimeUTC 1989 12 31

/-- `datetime_to_fit_timestamp` (lines 62-66):
`int((dt - FIT_EPOCH).total_seconds())`. -/
def datetime_to_fit_timestamp (t : Int) : Int := t - FIT_EPOCH

/-- `unix_to_fit_timestamp` (lines 69-72): `datetime.fromtimestamp(u,
tz=timezone.utc)` is the instant at Unix seconds `u`. -/
def unix_to_fit_timestamp (u : Int) : Int := datetime_to_fit_timestamp u

/-- The first element of the source record's `stream` array: per-channel
parallel sample sequences.  A missing channel is the empty list; a JSON
null inside a sequence is `none`; numeric samples are modelled as
integers, geohash samples as strings. -/
structure StreamMap where
  duration : List (Option Int)
  heartRate : List (Option Int)
  cadence : List (Option Int)
  powerOriginal : List (Option Int)
  powerCalculated : List (Option Int)
  temperature : List (Option Int)
  geohashes : List (Option String)
deriving Repr

def emptyStreamMap : StreamMap := ⟨[], [], [], [], [], [], []⟩

/-- A source JSON activity record; `none` is an absent or null field. -/
structure JsonActivity where
  time : Option Int
  sport : Option String
  duration : Option Int
  elapsedTime : Option Int
  distance : Option Int
  kcal : Option Int
  hrAvg : Option Int
  hrMax : Option Int
  cadence : Option Int
  power : Option Int
  stream : List StreamMap
deriving Repr

/-- `SPORT_MAP` (lines 44-59). -/
def SPORT_MAP : List (String × Int × Int) :=
  [("Running", 1, 0), ("Cycling", 2, 0), ("Swimming", 5, 0), ("Walking", 11, 0),
   ("Hiking", 17, 0), ("Strength training", 4, 20), ("Indoor cycling", 2, 6),
   ("Flexibility training", 4, 15), ("Yoga", 4, 43), ("Other", 0, 0),
   ("Rowing", 15, 0), ("Kayaking", 41, 0), ("Sailing", 32, 0), ("Diving", 53, 0)]

/-- `SPORT_MAP.get(sport_name, (0, 0))` (line 417). -/
def sport_lookup (s : String) : Int × Int := (SPORT_MAP.lookup s).getD (0, 0)

/-- `data.get('duration') or data.get('elapsedTime')` (line 428): Python
`or` keeps the left operand only when it is truthy. -/
def pyOr (a b : Option Int) : Option Int := if truthy a then a else b

/-- Python `max` over a nonempty list (callers guarantee nonemptiness). -/
def maxOfList (l : List Int) : Int :=
  match l with
  | [] => 0
  | x :: xs => xs.foldl max x

/-- Duration resolution (lines 427-434): a truthy `duration`, else a
truthy `elapsedTime`, else — when the per-sample `Duration` series is
nonempty and has a non-null entry — the maximum non-null entry. -/
def duration_res (dur elap : Option Int) (durData : List (Option Int)) : Option Int :=
  let duration0 := pyOr dur elap
  if !truthy duration0 && !durData.isEmpty then
    let valid := durData.filterMap id
    if !valid.isEmpty then some (maxOfList valid) else duration0
  else duration0

inductive ConvError where
  | missingTimestamp
  | maxOfEmpty
deriving DecidableEq, Repr

/-- End-time calculation (lines 506-512).  When the resolved duration is
falsy but the sample series is nonempty with only nulls, the source's
`max()` over an empty generator raises `ValueError`, caught by the outer
handler and counted as a conversion failure (`maxOfEmpty`). -/
def end_time_res (start : Int) (durationRes : Option Int)
    (durData : List (Option Int)) : Except ConvError Int :=
  if truthy durationRes then Except.ok (start + durationRes.getD 0)
  else if !durData.isEmpty then
    if (durData.filterMap id).isEmpty then Except.error ConvError.maxOfEmpty
    else Except.ok (start + maxOfList (durData.filterMap id))
  else Except.ok start

/-- `stream = data.get('stream', [{}]); stream_data = stream[0] if
nonempty else {}` (lines 420-424). -/
def stream_data (a : JsonActivity) : StreamMap := a.stream.headD emptyStreamMap

/-- `stream_data.get('PowerOriginal', []) or
stream_data.get('PowerCalculated', [])` (line 444). -/
def power_stream (sm : StreamMap) : List (Option Int) :=
  if !sm.powerOriginal.isEmpty then sm.powerOriginal else sm.powerCalculated

/-- `bool(channel and any(v is not None for v in channel))`
(lines 449-452). -/
def anyPresent (l : List (Option Int)) : Bool :=
  !l.isEmpty && l.any (fun v => v.isSome)

/-- `bool(geohash_data and any(v for v in geohash_data))` (line 453):
string truthiness — non-null and nonempty. -/
def anyTruthyStr (l : List (Option String)) : Bool :=
  !l.isEmpty && l.any (fun v =>
    match v with
    | some s => !s.isEmpty
    | none => false)

/-- `num_records = len(duration_data) if duration_data else 0`
(line 455). -/
def numRecords (a : JsonActivity) : Nat := (stream_data a).duration.length

/-- The `has_*` flags passed to `add_record_definition` (lines 476-482). -/
def recordConfig (a : JsonActivity) : RecordConfig :=
  ⟨anyPresent (stream_data a).heartRate,
   anyPresent (stream_data a).cadence,
   anyPresent (power_stream (stream_data a)),
   anyPresent (stream_data a).temperature,
   anyTruthyStr (stream_data a).geohashes⟩

/-- Iteration `i` of the record loop (lines 484-504): record time from
the duration series when present (else `start + i`), channel values only
when the channel flag is set and the sample is non-null in range, and
the geohash decoded when present and truthy. -/
def record_at (a : JsonActivity) (start : Int) (cfg : RecordConfig) (i : Nat) :
    List Nat :=
  let sm := stream_data a
  let rt := match sm.duration.getD i none with
    | some d => start + d
    | none => start + (i : Int)
  let hr := if cfg.has_hr then sm.heartRate.getD i none else none
  let cad := if cfg.has_cadence then sm.cadence.getD i none else none
  let pwr := if cfg.has_power then (power_stream sm).getD i none else none
  let temp := if cfg.has_temperature then sm.temperature.getD i none else none
  let latlon : Option (ℚ × ℚ) :=
    if cfg.has_gps then
      match sm.geohashes.getD i none with
      | some s => if !s.isEmpty then some (geohash_to_latlon s.toList) else none
      | none => none
    else none
  add_record rt cfg hr cad pwr temp (latlon.map Prod.fst) (latlon.map Prod.snd)

/-- The writer calls of `convert_json_to_fit` (lines 466-533), given the
already-resolved start and end FIT timestamps: file-identity, start
event, the record block when there are samples, stop event, session,
activity. -/
def build_records (a : JsonActivity) (start endT : Int) : List (List Nat) :=
  let sm := stream_data a
  let durRes := duration_res a.duration a.elapsedTime sm.duration
  let sp := sport_lookup (a.sport.getD "Other")
  let cfg := recordConfig a
  let n := numRecords a
  let total_time := if truthy durRes then durRes.getD 0 else endT - start
  add_file_id start 1 1 12345 4 ++
  add_event start 0 0 ++
  (if n ≠ 0 then add_record_definition cfg ++ (List.range n).map (record_at a start cfg)
   else []) ++
  add_event endT 0 4 ++
  add_session endT start total_time total_time sp.1 sp.2 a.distance
    (if truthy a.kcal then a.kcal else none)
    (if truthy a.hrAvg then a.hrAvg else none)
    (if truthy a.hrMax then a.hrMax else none)
    (if truthy a.cadence then a.cadence else none)
    (if truthy a.power then a.power else none) ++
  add_activity endT total_time 1

/-- `convert_json_to_fit` (lines 403-544) up to the writer's record list:
a falsy top-level `time` (absent, null or `0`) aborts with
`missingTimestamp` — counted as a conversion failure by `main` — and the
`ValueError` of the end-time fallback aborts with `maxOfEmpty`. -/
def convert_records (a : JsonActivity) : Except ConvError (List (List Nat)) :=
  if truthy a.time then
    let start := unix_to_fit_timestamp (a.time.getD 0)
    let durRes := duration_res a.duration a.elapsedTime (stream_data a).duration
    (end_time_res start durRes (stream_data a).duration).map (build_records a start)
  else Except.error ConvError.missingTimestamp

/-- The four little-endian bytes encode an IEEE-754 single-precision NaN:
all exponent bits set, mantissa non-zero. -/
def isNaN32 (b : List Nat) : Bool :=
  (b.length == 4) &&
  (b.getD 3 0 % 128 * 2 + b.getD 2 0 / 128 == 255) &&
  (!(b.getD 2 0 % 128 == 0) || !(b.getD 1 0 == 0) || !(b.getD 0 0 == 0))

/-- Recomposition of a 4-byte little-endian field. -/
def readLE32 (b : List Nat) : Nat :=
  b.getD 0 0 + 256 * b.getD 1 0 + 65536 * b.getD 2 0 + 16777216 * b.getD 3 0

/-- Width of the current latitude interval. -/
def latW (st : GeoState) : ℚ := st.latHi - st.latLo

/-- Width of the current longitude interval. -/
def lonW (st : GeoState) : ℚ := st.lonHi - st.lonLo

/-- Number of definition records for local slot `k` in a record list
(a definition record's first byte is `0x40 + slot`, a data record's is
the slot itself). -/
def defCount (recs : List (List Nat)) (k : Nat) : Nat :=
  recs.countP (fun r => decide (r.headD 0 = 0x40 + k))

/-- Scan a record list with the set of slots whose definition has been
seen: every data record must reference an already-defined slot. -/
def checkDefBefore : List (List Nat) → List Nat → Bool
  | [], _ => true
  | r :: rs, seen =>
    if 0x40 ≤ r.headD 0 then checkDefBefore rs ((r.headD 0 - 0x40) :: seen)
    else seen.contains (r.headD 0) && checkDefBefore rs seen

/-- A minimal convertible activity: a truthy timestamp and no stream. -/
def exActivity : JsonActivity :=
  { time := some 1000, sport := none, duration := none, elapsedTime := none,
    distance := none, kcal := none, hrAvg := none, hrMax := none,
    cadence := none, power := none, stream := [] }

theorem clustersFuel_congr :
    ∀ (m n : Nat) (l : List FileEntry) (T : Int), l.length ≤ m → l.length ≤ n →
      clustersFuel m l T = clustersFuel n l T := by
  intro m
  induction m with
  | zero =>
    intro n l T hm _
    have hl : l = [] := List.length_eq_zero.mp (Nat.le_zero.mp hm)
    subst hl
    cases n <;> rfl
  | succ m ih =>
    intro n l T hm hn
    match l, n with
    | [], 0 => rfl
    | [], _ + 1 => rfl
    | a :: rest, 0 => exact absurd hn (by simp)
    | a :: rest, n + 1 =>
      have hrm : rest.length ≤ m := Nat.lt_succ_iff.mp hm
      have hrn : rest.length ≤ n := Nat.lt_succ_iff.mp hn
      have hlf := rest.length_filter_le (fun f => ! withinTol a.ts f.ts T)
      show _ :: clustersFuel m _ T = _ :: clustersFuel n _ T
      rw [ih n _ T (le_trans hlf hrm) (le_trans hlf hrn)]

theorem clusters_cons (a : FileEntry) (rest : List FileEntry) (T : Int) :
    clusters (a :: rest) T =
      (a.ts, a :: rest.filter (fun f => withinTol a.ts f.ts T)) ::
        clusters (rest.filter (fun f => ! withinTol a.ts f.ts T)) T := by
  show clustersFuel (rest.length + 1) (a :: rest) T = _
  rw [clustersFuel]
  rw [clustersFuel_congr rest.length _ _ T (rest.length_filter_le _) (le_refl _)]
  rfl

theorem anchorsFuel_congr :
    ∀ (m n : Nat) (l : List FileEntry) (T : Int), l.length ≤ m → l.length ≤ n →
      anchorsFuel m l T = anchorsFuel n l T := by
  intro m
  induction m with
  | zero =>
    intro n l T hm _
    have hl : l = [] := List.length_eq_zero.mp (Nat.le_zero.mp hm)
    subst hl
    cases n <;> rfl
  | succ m ih =>
    intro n l T hm hn
    match l, n with
    | [], 0 => rfl
    | [], _ + 1 => rfl
    | a :: rest, 0 => exact absurd hn (by simp)
    | a :: rest, n + 1 =>
      have hrm : rest.length ≤ m := Nat.lt_succ_iff.mp hm
      have hrn : rest.length ≤ n := Nat.lt_succ_iff.mp hn
      have hlf := rest.length_filter_le (fun f => ! withinTol a.ts f.ts T)
      show _ :: anchorsFuel m _ T = _ :: anchorsFuel n _ T
      rw [ih n _ T (le_trans hlf hrm) (le_trans hlf hrn)]

theorem anchorsList_cons (a : FileEntry) (rest : List FileEntry) (T : Int) :
    anchorsList (a :: rest) T =
      a :: anchorsList (rest.filter (fun f => ! withinTol a.ts f.ts T)) T := by
  show anchorsFuel (rest.length + 1) (a :: rest) T = _
  rw [anchorsFuel]
  rw [anchorsFuel_congr rest.length _ _ T (rest.length_filter_le _) (le_refl _)]
  rfl

/-- C1 counterexample: with tolerance 5 the first run groups `{A,B}`,
keeps `B` (priority 1) and deletes `A`; `C` is a singleton and survives.
Re-running on the survivors `{B, C}` finds one further duplicate group
(`|5 - 10| ≤ 5`) and one further deletion, so resolution is not
idempotent as claimed. -/
theorem rerun_on_priority_survivors_not_empty :
    survivors exBatch 5 = [⟨1, 5, 1⟩, ⟨2, 10, 2⟩] ∧
    (find_duplicates (survivors exBatch 5) 5).length = 1 ∧
    ((display_duplicates (find_duplicates (survivors exBatch 5) 5)).2).length = 1 := by
  decide

theorem anchorsList_sublist :
    ∀ (n : Nat) (l : List FileEntry), l.length ≤ n → ∀ T, List.Sublist (anchorsList l T) l := by
  intro n
  induction n with
  | zero =>
    intro l h T
    have hl : l = [] := List.length_eq_zero.mp (Nat.le_zero.mp h)
    subst hl
    exact List.Sublist.refl _
  | succ n ih =>
    intro l h T
    match l with
    | [] => exact List.Sublist.refl _
    | a :: rest =>
      rw [anchorsList_cons]
      have hr : rest.length ≤ n := Nat.lt_succ_iff.mp h
      have htail :
          List.Sublist (anchorsList (rest.filter (fun f => ! withinTol a.ts f.ts T)) T) rest :=
        (ih _ (le_trans (rest.length_filter_le _) hr) T).trans (rest.filter_sublist)
      exact htail.cons₂ a

/-- Any two distinct anchors are more than the tolerance apart: a later
anchor survived the earlier anchor's inner scan. -/
theorem anchorsList_pairwise :
    ∀ (n : Nat) (l : List FileEntry), l.length ≤ n → ∀ T,
      (anchorsList l T).Pairwise (fun a b => withinTol a.ts b.ts T = false) := by
  intro n
  induction n with
  | zero =>
    intro l h T
    have hl : l = [] := List.length_eq_zero.mp (Nat.le_zero.mp h)
    subst hl
    exact List.Pairwise.nil
  | succ n ih =>
    intro l h T
    match l with
    | [] => exact List.Pairwise.nil
    | a :: rest =>
      rw [anchorsList_cons]
      have hr : rest.length ≤ n := Nat.lt_succ_iff.mp h
      refine List.Pairwise.cons ?_ (ih _ (le_trans (rest.length_filter_le _) hr) T)
      intro b hb
      have hbf : b ∈ rest.filter (fun f => ! withinTol a.ts f.ts T) :=
        (anchorsList_sublist _ _ (le_refl _) T).subset hb
      have := (List.mem_filter.mp hbf).2
      simpa using this

/-- On a batch whose members are pairwise more than `T` apart, every group
of the pass is a singleton. -/
theorem clusters_singleton_of_pairwise :
    ∀ (n : Nat) (l : List FileEntry), l.length ≤ n →
      ∀ T, l.Pairwise (fun a b => withinTol a.ts b.ts T = false) →
        ∀ g ∈ clusters l T, g.2.length = 1 := by
  intro n
  induction n with
  | zero =>
    intro l h T _ g hg
    have hl : l = [] := List.length_eq_zero.mp (Nat.le_zero.mp h)
    subst hl
    simp [clusters, clustersFuel] at hg
  | succ n ih =>
    intro l h T hp g hg
    match l with
    | [] => simp [clusters, clustersFuel] at hg
    | a :: rest =>
      rw [clusters_cons] at hg
      have hr : rest.length ≤ n := Nat.lt_succ_iff.mp h
      rcases List.mem_cons.mp hg with hg1 | hg2
      · subst hg1
        have hnil : rest.filter (fun f => withinTol a.ts f.ts T) = [] := by
          rw [List.filter_eq_nil_iff]
          intro b hb
          have := List.rel_of_pairwise_cons hp hb
          simp [this]
        simp [hnil]
      · refine ih _ (le_trans (rest.length_filter_le _) hr) T ?_ g hg2
        exact (List.Pairwise.sublist (rest.filter_sublist) (List.pairwise_cons.mp hp).2)

/-- C1 (amended): re-running the resolver on the survivors is a no-op
when each group's survivor is its anchor — in particular, running on the
anchors of all groups (first member of each, singletons included) finds
no further duplicate groups and deletes nothing.  With the actual
priority-based survivor selection the property fails
(`rerun_on_priority_survivors_not_empty`). -/
theorem rerun_on_anchor_survivors_empty (l : List FileEntry) (T : Int) (hT : 0 ≤ T) :
    find_duplicates (anchorsOf l T) T = [] ∧
    display_duplicates (find_duplicates (anchorsOf l T) T) = ([], []) := by
  have hsorted : List.Sorted tsLE (sortTs l) := List.sorted_insertionSort tsLE l
  have hsub : List.Sublist (anchorsOf l T) (sortTs l) := anchorsList_sublist _ _ (le_refl _) T
  have hsorted2 : List.Sorted tsLE (anchorsOf l T) := List.Pairwise.sublist hsub hsorted
  have hfix : sortTs (anchorsOf l T) = anchorsOf l T :=
    List.Sorted.insertionSort_eq hsorted2
  have hpair : (anchorsOf l T).Pairwise (fun a b => withinTol a.ts b.ts T = false) :=
    anchorsList_pairwise _ _ (le_refl _) T
  have hmain : find_duplicates (anchorsOf l T) T = [] := by
    unfold find_duplicates
    rw [hfix, List.filter_eq_nil_iff]
    intro g hg
    have := clusters_singleton_of_pairwise _ _ (le_refl _) T hpair g hg
    simp [this]
  exact ⟨hmain, by rw [hmain]; rfl⟩

/-- Witness for `rerun_on_anchor_survivors_empty` at a concrete batch. -/
theorem rerun_on_anchor_survivors_empty_witness :
    (0 : Int) ≤ 5 ∧ find_duplicates (anchorsOf exBatch 5) 5 = [] ∧
      display_duplicates (find_duplicates (anchorsOf exBatch 5) 5) = ([], []) :=
  ⟨by decide, rerun_on_anchor_survivors_empty exBatch 5 (by decide)⟩

theorem clusters_nil (T : Int) : clusters [] T = [] := rfl

/-- Every member of a group lies within the tolerance of the group's
anchor timestamp (the anchor itself trivially so). -/
theorem clusters_mem_within :
    ∀ (n : Nat) (l : List FileEntry), l.length ≤ n → ∀ T, 0 ≤ T →
      ∀ g ∈ clusters l T, ∀ f ∈ g.2, |g.1 - f.ts| ≤ T := by
  intro n
  induction n with
  | zero =>
    intro l h T hT g hg
    have hl : l = [] := List.length_eq_zero.mp (Nat.le_zero.mp h)
    subst hl
    simp [clusters_nil] at hg
  | succ n ih =>
    intro l h T hT g hg f hf
    match l with
    | [] => simp [clusters_nil] at hg
    | a :: rest =>
      rw [clusters_cons] at hg
      have hr : rest.length ≤ n := Nat.lt_succ_iff.mp h
      rcases List.mem_cons.mp hg with hg1 | hg2
      · subst hg1
        rcases List.mem_cons.mp hf with hf1 | hf2
        · subst hf1
          simpa using hT
        · have := (List.mem_filter.mp hf2).2
          simpa [withinTol] using this
      · exact ih _ (le_trans (rest.length_filter_le _) hr) T hT g hg2 f hf

/-- Each group is seeded by its anchor: the first member carries the
group's timestamp. -/
theorem clusters_head_anchor :
    ∀ (n : Nat) (l : List FileEntry), l.length ≤ n → ∀ T,
      ∀ g ∈ clusters l T, ∃ x xs, g.2 = x :: xs ∧ x.ts = g.1 := by
  intro n
  induction n with
  | zero =>
    intro l h T g hg
    have hl : l = [] := List.length_eq_zero.mp (Nat.le_zero.mp h)
    subst hl
    simp [clusters_nil] at hg
  | succ n ih =>
    intro l h T g hg
    match l with
    | [] => simp [clusters_nil] at hg
    | a :: rest =>
      rw [clusters_cons] at hg
      have hr : rest.length ≤ n := Nat.lt_succ_iff.mp h
      rcases List.mem_cons.mp hg with hg1 | hg2
      · subst hg1
        exact ⟨a, _, rfl, rfl⟩
      · exact ih _ (le_trans (rest.length_filter_le _) hr) T g hg2

/-- The groups of the pass partition the input: their concatenation is a
permutation of the scanned list (every item is visited exactly once). -/
theorem clusters_flatMap_perm :
    ∀ (n : Nat) (l : List FileEntry), l.length ≤ n → ∀ T,
      ((clusters l T).flatMap (fun g => g.2)).Perm l := by
  intro n
  induction n with
  | zero =>
    intro l h T
    have hl : l = [] := List.length_eq_zero.mp (Nat.le_zero.mp h)
    subst hl
    simp [clusters_nil]
  | succ n ih =>
    intro l h T
    match l with
    | [] => simp [clusters_nil]
    | a :: rest =>
      rw [clusters_cons]
      have hr : rest.length ≤ n := Nat.lt_succ_iff.mp h
      have hIH :
          ((clusters (rest.filter (fun f => ! withinTol a.ts f.ts T)) T).flatMap
              (fun g => g.2)).Perm
            (rest.filter (fun f => ! withinTol a.ts f.ts T)) :=
        ih (rest.filter (fun f => ! withinTol a.ts f.ts T))
          (le_trans (rest.length_filter_le _) hr) T
      rw [List.flatMap_cons]
      show ((a :: rest.filter (fun f => withinTol a.ts f.ts T)) ++ _).Perm (a :: rest)
      rw [List.cons_append]
      refine List.Perm.cons a ?_
      refine List.Perm.trans (List.Perm.append_left _ hIH) ?_
      exact List.filter_append_perm _ rest

theorem sortTs_two (f1 f2 : FileEntry) :
    sortTs [f1, f2] = if f1.ts ≤ f2.ts then [f1, f2] else [f2, f1] := by
  by_cases hc : f1.ts ≤ f2.ts
  · simp [sortTs, List.insertionSort, List.orderedInsert, tsLE, hc]
  · simp [sortTs, List.insertionSort, List.orderedInsert, tsLE, hc]

theorem clusters_two (x y : FileEntry) (T : Int) :
    clusters [x, y] T =
      if withinTol x.ts y.ts T then [(x.ts, [x, y])]
      else [(x.ts, [x]), (y.ts, [y])] := by
  by_cases h : withinTol x.ts y.ts T = true
  · simp [clusters_cons, clusters_nil, h]
  · simp only [Bool.not_eq_true] at h
    simp [clusters_cons, clusters_nil, h]

theorem grouped_iff_two (f1 f2 : FileEntry) (T : Int) :
    (∃ g ∈ find_duplicates [f1, f2] T, f1 ∈ g.2 ∧ f2 ∈ g.2) ↔
      |f1.ts - f2.ts| ≤ T := by
  unfold find_duplicates
  rw [sortTs_two]
  by_cases hc : f1.ts ≤ f2.ts
  · rw [if_pos hc, clusters_two]
    by_cases hw : |f1.ts - f2.ts| ≤ T
    · have hwb : withinTol f1.ts f2.ts T = true := by simpa [withinTol]
      rw [if_pos hwb]
      simp [hw]
    · have hwb : withinTol f1.ts f2.ts T = false := by simp [withinTol, hw]
      rw [if_neg (by simp [hwb])]
      simp [hw]
  · rw [if_neg hc, clusters_two]
    have habs : |f2.ts - f1.ts| = |f1.ts - f2.ts| := abs_sub_comm _ _
    by_cases hw : |f1.ts - f2.ts| ≤ T
    · have hwb : withinTol f2.ts f1.ts T = true := by simp [withinTol, habs, hw]
      rw [if_pos hwb]
      simp [hw]
    · have hwb : withinTol f2.ts f1.ts T = false := by simp [withinTol, habs, hw]
      rw [if_neg (by simp [hwb])]
      simp [hw]

/-- C3: grouping is anchor-relative.  For every batch and tolerance
`T ≥ 0`: every reported group's members are within `T` of the group's
anchor timestamp (membership is tested against the anchor only); each
group is seeded by its anchor (its first member carries the group
timestamp); the pass visits every file exactly once (the groups of the
pass, singletons included, partition the sorted batch); and two files are
grouped iff `|Δt| ≤ T`, the boundary `|Δt| = T` included. -/
theorem grouping_anchor_relative (l : List FileEntry) (T : Int) (hT : 0 ≤ T) :
    (∀ g ∈ find_duplicates l T, ∀ f ∈ g.2, |g.1 - f.ts| ≤ T) ∧
    (∀ g ∈ find_duplicates l T, ∃ x xs, g.2 = x :: xs ∧ x.ts = g.1) ∧
    ((clusters (sortTs l) T).flatMap (fun g => g.2)).Perm l ∧
    (∀ f1 f2 : FileEntry,
      (∃ g ∈ find_duplicates [f1, f2] T, f1 ∈ g.2 ∧ f2 ∈ g.2) ↔
        |f1.ts - f2.ts| ≤ T) := by
  refine ⟨?_, ?_, ?_, fun f1 f2 => grouped_iff_two f1 f2 T⟩
  · intro g hg
    have hg2 : g ∈ clusters (sortTs l) T := (List.mem_filter.mp hg).1
    exact clusters_mem_within _ _ (le_refl _) T hT g hg2
  · intro g hg
    have hg2 : g ∈ clusters (sortTs l) T := (List.mem_filter.mp hg).1
    exact clusters_head_anchor _ _ (le_refl _) T g hg2
  · exact List.Perm.trans (clusters_flatMap_perm _ _ (le_refl _) T)
      (List.perm_insertionSort tsLE l)

/-- Witness for `grouping_anchor_relative` at a concrete batch. -/
theorem grouping_anchor_relative_witness :
    (0 : Int) ≤ 5 ∧
    ((∀ g ∈ find_duplicates exBatch 5, ∀ f ∈ g.2, |g.1 - f.ts| ≤ 5) ∧
    (∀ g ∈ find_duplicates exBatch 5, ∃ x xs, g.2 = x :: xs ∧ x.ts = g.1) ∧
    ((clusters (sortTs exBatch) 5).flatMap (fun g => g.2)).Perm exBatch ∧
    (∀ f1 f2 : FileEntry,
      (∃ g ∈ find_duplicates [f1, f2] 5, f1 ∈ g.2 ∧ f2 ∈ g.2) ↔
        |f1.ts - f2.ts| ≤ 5)) :=
  ⟨by decide, grouping_anchor_relative exBatch 5 (by decide)⟩

/-- The loop of `display_duplicates` in closed form: the kept files are
the heads of the priority-sorted groups, the deletion list their tails. -/
theorem display_duplicates_eq :
    ∀ (gs : List (Int × List FileEntry)) (acc : List FileEntry × List FileEntry),
      gs.foldl
        (fun kd g => (kd.1 ++ (sortPri g.2).take 1, kd.2 ++ (sortPri g.2).drop 1))
        acc =
      (acc.1 ++ gs.flatMap (fun g => (sortPri g.2).take 1),
       acc.2 ++ gs.flatMap (fun g => (sortPri g.2).drop 1)) := by
  intro gs
  induction gs with
  | nil => intro acc; simp
  | cons g gs ih =>
    intro acc
    rw [List.foldl_cons, ih, List.flatMap_cons, List.flatMap_cons]
    simp [List.append_assoc]

/-- Every group of the pass is a sublist of the scanned list. -/
theorem clusters_group_sublist :
    ∀ (n : Nat) (l : List FileEntry), l.length ≤ n → ∀ T,
      ∀ g ∈ clusters l T, List.Sublist g.2 l := by
  intro n
  induction n with
  | zero =>
    intro l h T g hg
    have hl : l = [] := List.length_eq_zero.mp (Nat.le_zero.mp h)
    subst hl
    simp [clusters_nil] at hg
  | succ n ih =>
    intro l h T g hg
    match l with
    | [] => simp [clusters_nil] at hg
    | a :: rest =>
      rw [clusters_cons] at hg
      have hr : rest.length ≤ n := Nat.lt_succ_iff.mp h
      rcases List.mem_cons.mp hg with hg1 | hg2
      · subst hg1
        exact (rest.filter_sublist).cons₂ a
      · have := ih _ (le_trans (rest.length_filter_le _) hr) T g hg2
        exact (this.trans (rest.filter_sublist)).trans (List.sublist_cons_self a rest)

/-- C4: in every reported duplicate group (all of which have at least two
members — singletons are discarded), the members are stable-sorted by
provenance priority; the first of the sorted members goes on the keep
list and exactly the remaining ones go on the deletion list.  A file with
no other file within tolerance of it is never marked for deletion. -/
theorem group_survivor_selection (l : List FileEntry) (T : Int) (hT : 0 ≤ T)
    (hN : (l.map FileEntry.id).Nodup) :
    (∀ g ∈ find_duplicates l T, 2 ≤ g.2.length) ∧
    (∀ g ∈ find_duplicates l T,
      List.Sorted priLE (sortPri g.2) ∧ (sortPri g.2).Perm g.2 ∧
      ∃ k ds, sortPri g.2 = k :: ds ∧
        k ∈ (display_duplicates (find_duplicates l T)).1 ∧
        ∀ f ∈ ds, f ∈ (display_duplicates (find_duplicates l T)).2) ∧
    (∀ f ∈ l, (∀ f' ∈ l, f' ≠ f → T < |f.ts - f'.ts|) →
      f ∉ (display_duplicates (find_duplicates l T)).2) := by
  have hlen : ∀ g ∈ find_duplicates l T, 2 ≤ g.2.length := by
    intro g hg
    have := (List.mem_filter.mp hg).2
    simpa using this
  have hdisp := display_duplicates_eq (find_duplicates l T) ([], [])
  refine ⟨hlen, ?_, ?_⟩
  · intro g hg
    refine ⟨List.sorted_insertionSort priLE g.2, List.perm_insertionSort priLE g.2, ?_⟩
    have hlg : 2 ≤ (sortPri g.2).length := by
      show 2 ≤ (List.insertionSort priLE g.2).length
      rw [(List.perm_insertionSort priLE g.2).length_eq]
      exact hlen g hg
    match hsp : sortPri g.2 with
    | [] => rw [hsp] at hlg; simp at hlg
    | k :: ds =>
      refine ⟨k, ds, rfl, ?_, ?_⟩
      · show k ∈ (display_duplicates (find_duplicates l T)).1
        rw [display_duplicates, hdisp]
        simp only [List.nil_append]
        exact List.mem_flatMap_of_mem hg (by rw [hsp]; simp)
      · intro f hf
        show f ∈ (display_duplicates (find_duplicates l T)).2
        rw [display_duplicates, hdisp]
        simp only [List.nil_append]
        exact List.mem_flatMap_of_mem hg (by rw [hsp]; simpa)
  · intro f hfl hlone hdel
    rw [display_duplicates, hdisp] at hdel
    simp only [List.nil_append] at hdel
    rcases List.mem_flatMap.mp hdel with ⟨g, hg, hfd⟩
    have hfg : f ∈ g.2 :=
      (List.perm_insertionSort priLE g.2).mem_iff.mp (List.mem_of_mem_drop hfd)
    have hgc : g ∈ clusters (sortTs l) T := (List.mem_filter.mp hg).1
    have hsubl : List.Sublist g.2 (sortTs l) :=
      clusters_group_sublist _ _ (le_refl _) T g hgc
    have hmem_l : ∀ x ∈ g.2, x ∈ l := by
      intro x hx
      exact (List.perm_insertionSort tsLE l).mem_iff.mp (hsubl.subset hx)
    have hnodup : g.2.Nodup := by
      have h1 : l.Nodup := List.Nodup.of_map _ hN
      have h2 : (sortTs l).Nodup := (List.perm_insertionSort tsLE l).symm.nodup h1
      exact h2.sublist hsubl
    rcases clusters_head_anchor _ _ (le_refl _) T g hgc with ⟨x, xs, hx, hxts⟩
    have hwithin : ∀ y ∈ g.2, |g.1 - y.ts| ≤ T :=
      clusters_mem_within _ _ (le_refl _) T hT g hgc
    by_cases hfx : f = x
    · subst hfx
      have hxs : xs ≠ [] := by
        intro hnil
        have h2 := hlen g hg
        rw [hx, hnil] at h2
        simp at h2
      match xs, hxs with
      | y :: ys, _ =>
        have hyg : y ∈ g.2 := by rw [hx]; simp
        have hyx : y ≠ f := by
          rw [hx] at hnodup
          intro hyf
          exact (List.nodup_cons.mp hnodup).1 (hyf ▸ (by simp : y ∈ y :: ys))
        have h1 : T < |f.ts - y.ts| := hlone y (hmem_l y hyg) hyx
        have h2 : |g.1 - y.ts| ≤ T := hwithin y hyg
        rw [hxts] at h1
        exact absurd h2 (not_le.mpr h1)
    · have hxg : x ∈ g.2 := by rw [hx]; simp
      have h1 : T < |f.ts - x.ts| := hlone x (hmem_l x hxg) (fun hxf => hfx hxf.symm)
      have h2 : |g.1 - f.ts| ≤ T := hwithin f hfg
      rw [← hxts, abs_sub_comm] at h2
      exact absurd h2 (not_le.mpr h1)

/-- Witness for `group_survivor_selection` at a concrete batch. -/
theorem group_survivor_selection_witness :
    ((0 : Int) ≤ 5 ∧ (exBatch.map FileEntry.id).Nodup) ∧
    ((∀ g ∈ find_duplicates exBatch 5, 2 ≤ g.2.length) ∧
    (∀ g ∈ find_duplicates exBatch 5,
      List.Sorted priLE (sortPri g.2) ∧ (sortPri g.2).Perm g.2 ∧
      ∃ k ds, sortPri g.2 = k :: ds ∧
        k ∈ (display_duplicates (find_duplicates exBatch 5)).1 ∧
        ∀ f ∈ ds, f ∈ (display_duplicates (find_duplicates exBatch 5)).2) ∧
    (∀ f ∈ exBatch, (∀ f' ∈ exBatch, f' ≠ f → 5 < |f.ts - f'.ts|) →
      f ∉ (display_duplicates (find_duplicates exBatch 5)).2)) :=
  ⟨⟨by decide, by decide⟩, group_survivor_selection exBatch 5 (by decide) (by decide)⟩

/-- C5: every absent (`None`) field value is encoded as its base type's
reserved pattern — `0xFF` for enum and unsigned-8, `0x7F` for signed-8,
`0x7FFF`/`0xFFFF` for 16-bit, `0x7FFFFFFF`/`0xFFFFFFFF` for 32-bit, an
IEEE NaN for float32, a single NUL byte for strings — never the encoding
of `0`; in particular a null heart-rate sample (a `uint8` field of a
record message) encodes to the single byte `0xFF`. -/
theorem absent_values_use_reserved_patterns :
    encode_field none 0x02 = [0xFF] ∧ encode_field none 0x00 = [0xFF] ∧
    encode_field none 0x01 = [0x7F] ∧ encode_field none 0x83 = [0xFF, 0x7F] ∧
    encode_field none 0x84 = [0xFF, 0xFF] ∧
    encode_field none 0x85 = [0xFF, 0xFF, 0xFF, 0x7F] ∧
    encode_field none 0x86 = [0xFF, 0xFF, 0xFF, 0xFF] ∧
    encode_field none 0x07 = [0x00] ∧
    isNaN32 (encode_field none 0x88) = true ∧
    encode_field none 0x00 ≠ encode_field (some 0) 0x00 ∧
    encode_field none 0x01 ≠ encode_field (some 0) 0x01 ∧
    encode_field none 0x02 ≠ encode_field (some 0) 0x02 ∧
    encode_field none 0x83 ≠ encode_field (some 0) 0x83 ∧
    encode_field none 0x84 ≠ encode_field (some 0) 0x84 ∧
    encode_field none 0x85 ≠ encode_field (some 0) 0x85 ∧
    encode_field none 0x86 ≠ encode_field (some 0) 0x86 ∧
    encode_field none 0x88 ≠ [0x00, 0x00, 0x00, 0x00] ∧
    add_record 100 ⟨true, false, false, false, false⟩ none none none none none none =
      [0x02, 100, 0, 0, 0, 0xFF] := by
  decide

theorem le32_readLE32 (n : Nat) (h : n < 4294967296) : readLE32 (le32 n) = n := by
  simp only [le32, readLE32, List.getD_cons_zero, List.getD_cons_succ]
  omega

/-- C6 (amended): the writer's output is twelve header content bytes —
header-size field 14, protocol version 0x20, profile version 2056, the
4-byte little-endian byte length of the message stream, the magic
'.FIT' — followed by the 16-bit nibble-table CRC of those twelve bytes
(completing the 14-byte header), the message stream, and the 16-bit CRC
of the message stream. -/
theorem write_framing_layout (records : List (List Nat))
    (h : records.flatten.length < 4294967296) :
    write_bytes records =
      [14, 0x20, 0x08, 0x08] ++ le32 records.flatten.length ++
        [0x2E, 0x46, 0x49, 0x54] ++
        le16 (crc16 ([14, 0x20, 0x08, 0x08] ++ le32 records.flatten.length ++
          [0x2E, 0x46, 0x49, 0x54])) ++
        records.flatten ++ le16 (crc16 records.flatten) ∧
    readLE32 (le32 records.flatten.length) = records.flatten.length ∧
    (write_bytes records).length = records.flatten.length + 16 := by
  refine ⟨rfl, le32_readLE32 _ h, ?_⟩
  simp [write_bytes]

/-- Witness for `write_framing_layout` at a one-byte message stream. -/
theorem write_framing_layout_witness :
    ([[1]] : List (List Nat)).flatten.length < 4294967296 ∧
    (write_bytes [[1]] =
      [14, 0x20, 0x08, 0x08] ++ le32 ([[1]] : List (List Nat)).flatten.length ++
        [0x2E, 0x46, 0x49, 0x54] ++
        le16 (crc16 ([14, 0x20, 0x08, 0x08] ++
          le32 ([[1]] : List (List Nat)).flatten.length ++ [0x2E, 0x46, 0x49, 0x54])) ++
        ([[1]] : List (List Nat)).flatten ++
        le16 (crc16 ([[1]] : List (List Nat)).flatten) ∧
    readLE32 (le32 ([[1]] : List (List Nat)).flatten.length) =
      ([[1]] : List (List Nat)).flatten.length ∧
    (write_bytes [[1]]).length = ([[1]] : List (List Nat)).flatten.length + 16) :=
  ⟨by decide, write_framing_layout [[1]] (by decide)⟩

/-- C6 counterexample: the claim reads the output as a 14-byte header
followed by a 16-bit checksum *of those 14 bytes*, then the stream and
its checksum.  For the one-byte stream `[1]` the bytes after the 14-byte
header are the stream itself, not a checksum of the 14 header bytes: the
claimed layout is not the produced one (the header checksum covers only
the first 12 bytes and sits inside the 14-byte header). -/
theorem header_crc_not_over_14_bytes :
    ¬ (write_bytes [[1]] =
        (write_bytes [[1]]).take 14 ++
          le16 (crc16 ((write_bytes [[1]]).take 14)) ++ [1] ++ le16 (crc16 [1])) := by
  decide

/-- C7 counterexample: an explicit top-level `duration` of `0` does not
win — it is falsy, so the code falls through to `elapsedTime`. -/
theorem explicit_zero_duration_not_used :
    duration_res (some 0) (some 100) [] = some 100 ∧
    duration_res (some 0) (some 100) [] ≠ some 0 := by
  decide

/-- C7 (amended): duration resolution follows Python truthiness — a
truthy (non-null, non-zero) `duration` wins, else a truthy
`elapsedTime`, else the maximum non-null value of the per-sample
series when one exists, else the falsy `elapsedTime` value is kept; the
end time is `start + duration` when the resolved duration is truthy,
`start` when the series is empty, the series maximum when it has a
non-null entry, and a `ValueError` conversion failure when the series is
nonempty but all-null. -/
theorem duration_resolution_truthy_precedence (dur elap : Option Int)
    (series : List (Option Int)) (start : Int) :
    duration_res dur elap series =
      (if truthy dur then dur
       else if truthy elap then elap
       else if !(series.filterMap id).isEmpty then
         some (maxOfList (series.filterMap id))
       else elap) ∧
    end_time_res start (duration_res dur elap series) series =
      (if truthy (duration_res dur elap series) then
          Except.ok (start + (duration_res dur elap series).getD 0)
       else if series.isEmpty then Except.ok start
       else if (series.filterMap id).isEmpty then Except.error ConvError.maxOfEmpty
       else Except.ok (start + maxOfList (series.filterMap id))) := by
  constructor
  · by_cases t1 : truthy dur
    · simp [duration_res, pyOr, t1]
    · by_cases t2 : truthy elap
      · simp [duration_res, pyOr, t1, t2]
      · match series with
        | [] => simp [duration_res, pyOr, t1, t2]
        | s :: ss =>
          by_cases hv : ((s :: ss).filterMap (fun x => id x)).isEmpty
          · simp [duration_res, pyOr, t1, t2, hv]
          · simp [duration_res, pyOr, t1, t2, hv]
  · by_cases td : truthy (duration_res dur elap series)
    · simp [end_time_res, td]
    · match series with
      | [] => simp [end_time_res, td]
      | s :: ss =>
        by_cases hv : ((s :: ss).filterMap (fun x => id x)).isEmpty
        · simp [end_time_res, td, hv]
        · simp [end_time_res, td, hv]

/-- C9: the epoch translation subtracts the fixed 631065600-second offset
between the Unix epoch and 1989-12-31T00:00:00Z (the FIT epoch), for
every non-negative integer Unix timestamp. -/
theorem unix_to_fit_offset (u : Int) (h : 0 ≤ u) :
    unix_to_fit_timestamp u = u - 631065600 := by
  have he : FIT_EPOCH = 631065600 := by decide
  simp [unix_to_fit_timestamp, datetime_to_fit_timestamp, he]

/-- Witness for `unix_to_fit_offset`. -/
theorem unix_to_fit_offset_witness :
    (0 : Int) ≤ 1700000000 ∧
    unix_to_fit_timestamp 1700000000 = 1700000000 - 631065600 :=
  ⟨by decide, unix_to_fit_offset 1700000000 (by decide)⟩

/-- C10: a present-but-falsy top-level `time` (the integer 0, the Unix
epoch itself) is treated exactly like an absent `time`: the file is
skipped with a `missingTimestamp` conversion failure and no output
records are produced. -/
theorem falsy_time_skipped (a : JsonActivity) :
    convert_records { a with time := some 0 } =
      Except.error ConvError.missingTimestamp ∧
    convert_records { a with time := none } =
      Except.error ConvError.missingTimestamp := by
  constructor <;> simp [convert_records, truthy]

theorem geoBit_isLon (st : GeoState) (b : Bool) : (geoBit st b).isLon = !st.isLon := by
  rcases st with ⟨la, lb, lc, ld, il⟩
  cases il <;> cases b <;> simp [geoBit]

theorem geoBit_lat (st : GeoState) (b : Bool) :
    latW (geoBit st b) = if st.isLon then latW st else latW st / 2 := by
  rcases st with ⟨la, lb, lc, ld, il⟩
  cases il <;> cases b <;> simp [geoBit, latW] <;> ring

theorem geoBit_lon (st : GeoState) (b : Bool) :
    lonW (geoBit st b) = if st.isLon then lonW st / 2 else lonW st := by
  rcases st with ⟨la, lb, lc, ld, il⟩
  cases il <;> cases b <;> simp [geoBit, lonW] <;> ring

/-- A valid alphabet character contributes five interval halvings,
alternating between the axes: each axis is halved at least twice. -/
theorem geoChar_width (st : GeoState) (c : Char) (h : c.toLower ∈ base32) :
    (st.isLon = true →
      latW (geoChar st c) = latW st / 4 ∧ lonW (geoChar st c) = lonW st / 8) ∧
    (st.isLon = false →
      latW (geoChar st c) = latW st / 8 ∧ lonW (geoChar st c) = lonW st / 4) := by
  simp only [geoChar, h, if_true, List.foldl_cons, List.foldl_nil]
  constructor <;> intro hil <;> constructor <;>
    simp [geoBit_lat, geoBit_lon, geoBit_isLon, hil] <;> ring

theorem geoChar_pos (st : GeoState) (c : Char)
    (hla : 0 < latW st) (hlo : 0 < lonW st) :
    0 < latW (geoChar st c) ∧ 0 < lonW (geoChar st c) := by
  by_cases h : c.toLower ∈ base32
  · rcases geoChar_width st c h with ⟨h1, h2⟩
    cases hil : st.isLon
    · rcases h2 hil with ⟨e1, e2⟩
      rw [e1, e2]
      constructor <;> linarith
    · rcases h1 hil with ⟨e1, e2⟩
      rw [e1, e2]
      constructor <;> linarith
  · simp [geoChar, h, hla, hlo]

theorem geoDecode_pos :
    ∀ (s : List Char) (st : GeoState), 0 < latW st → 0 < lonW st →
      0 < latW (s.foldl geoChar st) ∧ 0 < lonW (s.foldl geoChar st) := by
  intro s
  induction s with
  | nil => intro st h1 h2; exact ⟨h1, h2⟩
  | cons c s ih =>
    intro st h1 h2
    rcases geoChar_pos st c h1 h2 with ⟨h1', h2'⟩
    exact ih (geoChar st c) h1' h2'

/-- C8 (amended): decoding is total and silently skips characters outside
the alphabet, leaving the intervals unchanged, so appending an invalid
character does not narrow them; appending a character of the 32-character
alphabet strictly narrows both the latitude and the longitude interval;
and the returned pair is the midpoint of each final interval. -/
theorem geohash_narrowing_valid_chars (s : List Char) (c : Char) :
    (c.toLower ∈ base32 →
      latW (geoDecode (s ++ [c])) < latW (geoDecode s) ∧
      lonW (geoDecode (s ++ [c])) < lonW (geoDecode s)) ∧
    (c.toLower ∉ base32 → geoDecode (s ++ [c]) = geoDecode s) ∧
    geohash_to_latlon s =
      (((geoDecode s).latLo + (geoDecode s).latHi) / 2,
       ((geoDecode s).lonLo + (geoDecode s).lonHi) / 2) := by
  have hap : geoDecode (s ++ [c]) = geoChar (geoDecode s) c := by
    simp [geoDecode, List.foldl_append]
  have hpos : 0 < latW (geoDecode s) ∧ 0 < lonW (geoDecode s) := by
    have h90 : 0 < latW initGeoState := by norm_num [latW, initGeoState]
    have h180 : 0 < lonW initGeoState := by norm_num [lonW, initGeoState]
    exact geoDecode_pos s initGeoState h90 h180
  refine ⟨?_, ?_, rfl⟩
  · intro h
    rcases geoChar_width (geoDecode s) c h with ⟨h1, h2⟩
    rw [hap]
    cases hil : (geoDecode s).isLon
    · rcases h2 hil with ⟨e1, e2⟩
      rw [e1, e2]
      constructor <;> linarith [hpos.1, hpos.2]
    · rcases h1 hil with ⟨e1, e2⟩
      rw [e1, e2]
      constructor <;> linarith [hpos.1, hpos.2]
  · intro h
    rw [hap]
    simp [geoChar, h]

/-- Witness for `geohash_narrowing_valid_chars`: appending the valid
character 's' strictly narrows both intervals. -/
theorem geohash_narrowing_valid_chars_witness :
    Char.toLower 's' ∈ base32 ∧
    (latW (geoDecode (['s'] ++ ['s'])) < latW (geoDecode ['s']) ∧
     lonW (geoDecode (['s'] ++ ['s'])) < lonW (geoDecode ['s'])) :=
  ⟨by decide, (geohash_narrowing_valid_chars ['s'] 's').1 (by decide)⟩

/-- C8 counterexample: appending the character 'a' — outside the
alphabet — leaves the decoder state and hence both intervals unchanged,
so more input characters do not always yield strictly narrower
intervals. -/
theorem invalid_char_does_not_narrow :
    geoDecode ['s', 'a'] = geoDecode ['s'] ∧
    ¬ latW (geoDecode ['s', 'a']) < latW (geoDecode ['s']) := by
  have hmem : ('a' : Char) ∉ base32 := by decide
  have h : geoDecode ['s', 'a'] = geoDecode ['s'] := by
    show geoChar (geoChar initGeoState 's') 'a' = geoChar initGeoState 's'
    simp [geoChar, hmem]
  exact ⟨h, by rw [h]; exact lt_irrefl _⟩

theorem record_at_head (a : JsonActivity) (start : Int) (cfg : RecordConfig)
    (i : Nat) : (record_at a start cfg i).headD 0 = 2 := rfl

theorem record_at_head_getD (a : JsonActivity) (start : Int) (cfg : RecordConfig)
    (i : Nat) : (record_at a start cfg i).head?.getD 0 = 2 := rfl

theorem checkDefBefore_append_data :
    ∀ (xs rest : List (List Nat)) (seen : List Nat),
      (∀ r ∈ xs, r.headD 0 = 2) → seen.contains 2 = true →
      checkDefBefore (xs ++ rest) seen = checkDefBefore rest seen := by
  intro xs
  induction xs with
  | nil => intro rest seen _ _; rfl
  | cons r xs ih =>
    intro rest seen hall hseen
    have hr : r.headD 0 = 2 := hall r (by simp)
    rw [List.cons_append]
    show checkDefBefore (r :: (xs ++ rest)) seen = _
    rw [checkDefBefore, hr]
    rw [if_neg (by omega), hseen]
    simp only [Bool.true_and]
    exact ih rest seen (fun r' hr' => hall r' (by simp [hr'])) hseen

theorem defCount_data_records (a : JsonActivity) (start : Int) (cfg : RecordConfig)
    (n k : Nat) :
    defCount ((List.range n).map (record_at a start cfg)) k = 0 := by
  apply List.countP_eq_zero.mpr
  intro r hr
  rcases List.mem_map.mp hr with ⟨i, _, rfl⟩
  simp only [record_at_head, decide_eq_true_eq]
  omega

/-- The record-list structure produced for any successfully converted
activity: every slot's definition precedes its data records, the
file-identity, session and activity definitions appear exactly once, the
telemetry-record definition appears iff there are samples, and the event
definition appears twice (once per `add_event` call). -/
theorem build_records_blocks (a : JsonActivity) (start endT : Int) :
    checkDefBefore (build_records a start endT) [] = true ∧
    defCount (build_records a start endT) 0 = 1 ∧
    defCount (build_records a start endT) 1 = 2 ∧
    defCount (build_records a start endT) 2 = (if numRecords a = 0 then 0 else 1) ∧
    defCount (build_records a start endT) 3 = 1 ∧
    defCount (build_records a start endT) 4 = 1 := by
  by_cases hn : numRecords a = 0
  · refine ⟨?_, ?_, ?_, ?_, ?_, ?_⟩ <;>
      simp [build_records, hn, add_file_id, add_event, add_session, add_activity,
        checkDefBefore, defCount, List.countP_cons]
  · have hb : build_records a start endT =
        [0x40, 0x00, 0x00, 0x00, 0x00, 0x05,
         0x00, 0x01, 0x00, 0x01, 0x02, 0x84, 0x02, 0x02, 0x84,
         0x03, 0x04, 0x86, 0x04, 0x04, 0x86] ::
        ([0x00] ++ encode_field (some 4) 0x00 ++
          encode_field (some 1) 0x84 ++ encode_field (some 1) 0x84 ++
          encode_field (some 12345) 0x86 ++ encode_field (some start) 0x86) ::
        [0x41, 0x00, 0x00, 0x15, 0x00, 0x03,
         0xFD, 0x04, 0x86, 0x00, 0x01, 0x00, 0x01, 0x01, 0x00] ::
        ([0x01] ++ encode_field (some start) 0x86 ++
          encode_field (some 0) 0x00 ++ encode_field (some 0) 0x00) ::
        ([0x42, 0x00, 0x00, 0x14, 0x00, (record_fields (recordConfig a)).length] ++
          (record_fields (recordConfig a)).flatMap (fun t => [t.1, t.2.1, t.2.2])) ::
        ((List.range (numRecords a)).map (record_at a start (recordConfig a)) ++
          ([0x41, 0x00, 0x00, 0x15, 0x00, 0x03,
            0xFD, 0x04, 0x86, 0x00, 0x01, 0x00, 0x01, 0x01, 0x00] ::
           ([0x01] ++ encode_field (some endT) 0x86 ++
             encode_field (some 0) 0x00 ++ encode_field (some 4) 0x00) ::
           add_session endT start
             (if truthy (duration_res a.duration a.elapsedTime
                 (stream_data a).duration) then
               (duration_res a.duration a.elapsedTime
                 (stream_data a).duration).getD 0
              else endT - start)
             (if truthy (duration_res a.duration a.elapsedTime
                 (stream_data a).duration) then
               (duration_res a.duration a.elapsedTime
                 (stream_data a).duration).getD 0
              else endT - start)
             (sport_lookup (a.sport.getD "Other")).1
             (sport_lookup (a.sport.getD "Other")).2 a.distance
             (if truthy a.kcal then a.kcal else none)
             (if truthy a.hrAvg then a.hrAvg else none)
             (if truthy a.hrMax then a.hrMax else none)
             (if truthy a.cadence then a.cadence else none)
             (if truthy a.power then a.power else none) ++
           add_activity endT
             (if truthy (duration_res a.duration a.elapsedTime
                 (stream_data a).duration) then
               (duration_res a.duration a.elapsedTime
                 (stream_data a).duration).getD 0
              else endT - start) 1)) := by
      simp [build_records, hn, add_file_id, add_event, add_record_definition,
        List.append_assoc]
    rw [hb]
    have hall : ∀ r ∈ (List.range (numRecords a)).map
        (record_at a start (recordConfig a)), r.headD 0 = 2 := by
      intro r hr
      rcases List.mem_map.mp hr with ⟨i, _, rfl⟩
      exact record_at_head a start (recordConfig a) i
    refine ⟨?_, ?_, ?_, ?_, ?_, ?_⟩
    · show checkDefBefore _ [] = true
      rw [checkDefBefore]
      rw [if_pos (by norm_num)]
      rw [checkDefBefore]
      rw [if_neg (by norm_num), checkDefBefore]
      rw [if_pos (by norm_num)]
      rw [checkDefBefore]
      rw [if_neg (by norm_num), checkDefBefore]
      rw [if_pos (by norm_num)]
      rw [checkDefBefore_append_data _ _ _ hall (by norm_num)]
      simp [checkDefBefore, add_session, add_activity, List.append_assoc]
    all_goals
      simp [defCount, add_session, add_activity, List.countP_cons,
        List.countP_append, hn]
    all_goals intro i _
    all_goals simp [record_at_head_getD]

/-- C2 (amended): in every record list the converter successfully
produces, each data block references a local slot whose definition block
occurred earlier in the output, and each kind's definition precedes its
first data block; the file-identity, session-summary and
activity-summary definitions are emitted exactly once, the
telemetry-record definition exactly once when there are samples (never
otherwise), but the event definition is emitted once per event message —
twice per file (start and stop events) — not exactly once. -/
theorem writer_definition_blocks_precede_data (a : JsonActivity)
    (recs : List (List Nat)) (h : convert_records a = Except.ok recs) :
    checkDefBefore recs [] = true ∧
    defCount recs 0 = 1 ∧ defCount recs 1 = 2 ∧
    defCount recs 2 = (if numRecords a = 0 then 0 else 1) ∧
    defCount recs 3 = 1 ∧ defCount recs 4 = 1 := by
  by_cases t : truthy a.time
  · simp only [convert_records, t, if_true] at h
    cases he : end_time_res (unix_to_fit_timestamp (a.time.getD 0))
        (duration_res a.duration a.elapsedTime (stream_data a).duration)
        ((stream_data a).duration) with
    | error e =>
      rw [he] at h
      simp [Except.map] at h
    | ok endT =>
      rw [he] at h
      simp only [Except.map, Except.ok.injEq] at h
      rw [← h]
      exact build_records_blocks a _ endT
  · simp only [convert_records, t, if_false] at h
    simp at h

/-- Witness for `writer_definition_blocks_precede_data` at a concrete
activity record. -/
theorem writer_definition_blocks_precede_data_witness :
    convert_records exActivity =
      Except.ok ((convert_records exActivity).toOption.getD []) ∧
    (checkDefBefore ((convert_records exActivity).toOption.getD []) [] = true ∧
     defCount ((convert_records exActivity).toOption.getD []) 0 = 1 ∧
     defCount ((convert_records exActivity).toOption.getD []) 1 = 2 ∧
     defCount ((convert_records exActivity).toOption.getD []) 2 =
       (if numRecords exActivity = 0 then 0 else 1) ∧
     defCount ((convert_records exActivity).toOption.getD []) 3 = 1 ∧
     defCount ((convert_records exActivity).toOption.getD []) 4 = 1) :=
  ⟨rfl, writer_definition_blocks_precede_data exActivity _ rfl⟩

/-- C2 counterexample: the output for a concrete activity contains the
event kind's definition block twice (once before the start event, once
before the stop event), so no message kind's definition is emitted
"exactly once per file" across the board. -/
theorem event_definition_emitted_twice :
    convert_records exActivity =
      Except.ok ((convert_records exActivity).toOption.getD []) ∧
    defCount ((convert_records exActivity).toOption.getD []) 1 = 2 ∧
    defCount ((convert_records exActivity).toOption.getD []) 1 ≠ 1 := by
  refine ⟨rfl, ?_, ?_⟩ <;> decide
